import Mathlib

/-!
Verification development for `plothere.py` (HERE isoline plotting).

The Python source is shallowly embedded over exact rationals (`ℚ`).
Python floats are modelled by `ℚ`, except where the source genuinely
computes with IEEE special values (`find_extent` initializes its scan
with `±np.inf`), where the type `RFloat` below mirrors the IEEE
behaviour of the operations the source applies (`-`, `+`, `*`, `abs`,
`<`, `>`).  Python exceptions (IndexError on `poly[0]` of an empty
list, ValueError on `np.max` of an empty array, unbounded recursion)
are modelled by `Option`, with `none` standing for "the call does not
return normally".
-/

/-- IEEE-style extended value: `nan`, `+inf`, `-inf`, or a finite rational.
Models the numpy floats flowing through `find_extent` (lines 77-107). -/
inductive RFloat
  | nan
  | inf
  | ninf
  | fin (q : ℚ)
deriving DecidableEq

/-- IEEE negation. -/
def RFloat.neg : RFloat → RFloat
  | .nan => .nan
  | .inf => .ninf
  | .ninf => .inf
  | .fin q => .fin (-q)

/-- IEEE addition (`inf + -inf = nan`). -/
def RFloat.add : RFloat → RFloat → RFloat
  | .nan, _ => .nan
  | _, .nan => .nan
  | .inf, .ninf => .nan
  | .ninf, .inf => .nan
  | .inf, _ => .inf
  | _, .inf => .inf
  | .ninf, _ => .ninf
  | _, .ninf => .ninf
  | .fin a, .fin b => .fin (a + b)

/-- IEEE subtraction, as addition of the negation. -/
def RFloat.sub (a b : RFloat) : RFloat := a.add b.neg

/-- IEEE multiplication (`inf * 0 = nan`). -/
def RFloat.mul : RFloat → RFloat → RFloat
  | .nan, _ => .nan
  | _, .nan => .nan
  | .inf, .inf => .inf
  | .inf, .ninf => .ninf
  | .ninf, .inf => .ninf
  | .ninf, .ninf => .inf
  | .inf, .fin q => if 0 < q then .inf else if q < 0 then .ninf else .nan
  | .fin q, .inf => if 0 < q then .inf else if q < 0 then .ninf else .nan
  | .ninf, .fin q => if 0 < q then .ninf else if q < 0 then .inf else .nan
  | .fin q, .ninf => if 0 < q then .ninf else if q < 0 then .inf else .nan
  | .fin a, .fin b => .fin (a * b)

/-- IEEE absolute value. -/
def RFloat.abs : RFloat → RFloat
  | .nan => .nan
  | .inf => .inf
  | .ninf => .inf
  | .fin q => .fin |q|

/-- IEEE strict greater-than (`nan` compares false with everything). -/
def RFloat.gtb : RFloat → RFloat → Bool
  | .nan, _ => false
  | _, .nan => false
  | .inf, .inf => false
  | .inf, _ => true
  | .ninf, _ => false
  | .fin _, .inf => false
  | .fin _, .ninf => true
  | .fin a, .fin b => decide (b < a)

/-- IEEE strict less-than. -/
def RFloat.ltb (a b : RFloat) : Bool := RFloat.gtb b a

/-- A polygon boundary: list of 2-D rational points (one row of the numpy
array per entry). -/
abbrev PolyQ := List (ℚ × ℚ)

/-- The four scan registers of `find_extent` (source lines 84-87),
initialized to `-inf` / `inf`. -/
structure ExtentState where
  lonMax : RFloat
  lonMin : RFloat
  latMax : RFloat
  latMin : RFloat
deriving DecidableEq

/-- Initial scan state of `find_extent`: `lon_max = -inf`, `lon_min = inf`,
`lat_max = -inf`, `lat_min = inf` (source lines 84-87). -/
def initState : ExtentState := ⟨.ninf, .inf, .ninf, .inf⟩

/-- One iteration of the `for PolyQ in all_poly` loop of `find_extent`
(source lines 89-97): conditional update of each register from the
per-polygon column max/min.  `np.max` / `np.min` of an empty array raises
ValueError, modelled by `none`. -/
def stepPoly (s : ExtentState) (poly : PolyQ) : Option ExtentState :=
  match (poly.map Prod.fst).max?, (poly.map Prod.fst).min?,
        (poly.map Prod.snd).max?, (poly.map Prod.snd).min? with
  | some a, some b, some c, some d =>
    some ⟨if RFloat.gtb (.fin a) s.lonMax then .fin a else s.lonMax,
          if RFloat.ltb (.fin b) s.lonMin then .fin b else s.lonMin,
          if RFloat.gtb (.fin c) s.latMax then .fin c else s.latMax,
          if RFloat.ltb (.fin d) s.latMin then .fin d else s.latMin⟩
  | _, _, _, _ => none

/-- The whole scan loop of `find_extent` over the polygon list. -/
def scanLoop : ExtentState → List PolyQ → Option ExtentState
  | s, [] => some s
  | s, p :: ps =>
    match stepPoly s p with
    | none => none
    | some s2 => scanLoop s2 ps

/-- Embedding of `find_extent(all_poly, buffer)` (source lines 77-107):
scan all polygons for lon/lat min/max, pad both axes by
`abs(lon_max - lon_min) * buffer`, and return
`[bottom, top, left, right] = [lon_min - pad, lon_max + pad, lat_min - pad, lat_max + pad]`. -/
def find_extent (all_poly : List PolyQ) (buffer : ℚ) : Option (List RFloat) :=
  match scanLoop initState all_poly with
  | none => none
  | some s =>
    let lon_buffer := RFloat.mul (RFloat.abs (RFloat.sub s.lonMax s.lonMin)) (.fin buffer)
    let lat_buffer := RFloat.mul (RFloat.abs (RFloat.sub s.lonMax s.lonMin)) (.fin buffer)
    some [RFloat.sub s.lonMin lon_buffer,
          RFloat.add s.lonMax lon_buffer,
          RFloat.sub s.latMin lat_buffer,
          RFloat.add s.latMax lat_buffer]

/-- Specification-side extent, written from the words of claim C3: a single
pad `(lon_max - lon_min) * buffer_ratio` from the longitude span only,
applied to both axes, returning `(bottom, top, left, right)`. -/
def spec_extent (all_poly : List PolyQ) (buffer : ℚ) : Option (List ℚ) :=
  match ((all_poly.flatten).map Prod.fst).min?, ((all_poly.flatten).map Prod.fst).max?,
        ((all_poly.flatten).map Prod.snd).min?, ((all_poly.flatten).map Prod.snd).max? with
  | some lonMin, some lonMax, some latMin, some latMax =>
    some [lonMin - (lonMax - lonMin) * buffer,
          lonMax + (lonMax - lonMin) * buffer,
          latMin - (lonMax - lonMin) * buffer,
          latMax + (lonMax - lonMin) * buffer]
  | _, _, _, _ => none

/-- Matplotlib path vertex markers: `Path.MOVETO` / `Path.LINETO`. -/
inductive PathCode
  | moveto
  | lineto
deriving DecidableEq

/-- A matplotlib `Path(vertices, codes)` value. -/
structure MplPath where
  vertices : PolyQ
  codes : List PathCode
deriving DecidableEq

/-- Code list built for one boundary (source lines 186-187 and 253-257):
`[LINETO for p in poly]` with index 0 overwritten by `MOVETO`.  Indexing
`poly_C[0]` of an empty list raises IndexError, modelled by `none`. -/
def mkCodes : PolyQ → Option (List PathCode)
  | [] => none
  | _ :: rest => some (PathCode.moveto :: rest.map (fun _ => PathCode.lineto))

/-- The simple (first-ring) patch of the plotting loop, `i == 0` branch
(source lines 186-191): path with the ring's own vertices and one
move marker followed by line markers. -/
def simplePatch (poly : PolyQ) : Option MplPath :=
  (mkCodes poly).map (fun c => ⟨poly, c⟩)

/-- Embedding of `patch_between(poly1, poly2)` (source lines 247-267):
vertices are `poly1` followed by `poly2` reversed, codes are the two
boundaries' own move/line code lists concatenated. -/
def patch_between (poly1 poly2 : PolyQ) : Option MplPath :=
  match mkCodes poly1, mkCodes poly2 with
  | some c1, some c2 => some ⟨poly1 ++ poly2.reverse, c1 ++ c2⟩
  | _, _ => none

/-- The `i >= 1` part of the plotting loop of `plot_isolines` (source
lines 197-204): each subsequent ring is combined with its predecessor
through `patch_between`. -/
def buildRest (prev : PolyQ) : List PolyQ → Option (List MplPath)
  | [] => some []
  | r :: rs =>
    match patch_between r prev, buildRest r rs with
    | some p, some ps => some (p :: ps)
    | _, _ => none

/-- The full plotting loop of `plot_isolines` (source lines 183-204) viewed
as a region builder: first polygon becomes a simple patch, each later
polygon an annulus patch against its predecessor.  An empty polygon list
produces no patches (the `for` loop body never runs). -/
def buildAnnuli : List PolyQ → Option (List MplPath)
  | [] => some []
  | r :: rs =>
    match simplePatch r, buildRest r rs with
    | some p, some ps => some (p :: ps)
    | _, _ => none

/-- Specification-side boundary code list, from the words of claim C1: one
move marker at the first point, line markers for all remaining points. -/
def spec_boundary_codes (poly : PolyQ) : List PathCode :=
  PathCode.moveto :: List.replicate (poly.length - 1) PathCode.lineto

/-- Specification-side compound annulus region, from the words of claim C1:
outer boundary in natural order, inner boundary reversed, each boundary
restarting its own move marker. -/
def spec_region (outer inner : PolyQ) : MplPath :=
  ⟨outer ++ inner.reverse, spec_boundary_codes outer ++ spec_boundary_codes inner⟩

/-- Specification-side region list, from the words of claim C1: region 0 is
the first ring alone, and region `i` (for `i ≥ 1`) pairs ring `i` with
ring `i-1` as its hole. -/
def spec_regions : List PolyQ → List MplPath
  | [] => []
  | r :: rs => ⟨r, spec_boundary_codes r⟩ :: List.zipWith spec_region rs (r :: rs)

/-- Column swap applied per ring by `plot_isolines` (source line 129):
`np.hstack((np.vstack(coords[:,1]), np.vstack(coords[:,0])))`, turning
each decoded `(lat, lon)` row into `(lon, lat)`. -/
def swapRing (r : PolyQ) : PolyQ := r.map Prod.swap

/-- Python dict lookup `isolines[value]` on an insertion-ordered
association list. -/
def dictLookup (d : List (ℚ × PolyQ)) (k : ℚ) : Option PolyQ :=
  (d.find? (fun kv => decide (kv.1 = k))).map Prod.snd

/-- The polygon list materialized by `plot_isolines` (source lines 126-129):
`ranges = list(isolines.keys())` in dict insertion order, then the
column-swapped ring for each range value.  A missing key cannot occur
(keys are drawn from the dict itself); `.getD []` is unreachable junk. -/
def plotPolygons (isolines : List (ℚ × PolyQ)) : List PolyQ :=
  (isolines.map Prod.fst).map (fun v => swapRing ((dictLookup isolines v).getD []))

/-- The sequence of plotted regions produced by `plot_isolines` for a given
isoline dict: the plotting loop applied to the column-swapped polygons
taken in dict insertion order. -/
def plot_isolines_regions (isolines : List (ℚ × PolyQ)) : Option (List MplPath) :=
  buildAnnuli (plotPolygons isolines)

/-- Specification-side axis exchange on the scan state, from the words of
claim C10: the longitude registers take the latitude values and vice
versa. -/
def axes_swapped (s : ExtentState) : ExtentState :=
  ⟨s.latMax, s.latMin, s.lonMax, s.lonMin⟩

/-- One isoline entry of the HERE response: a declared range value and the
compressed polygon payloads (`iso['polygons']`), with the payload type kept
abstract because the flexpolyline codec is an external collaborator. -/
structure IsoEntry (σ : Type) where
  rangeValue : ℚ
  polygons : List σ

/-- Python dict assignment `d[k] = v`: overwrite in place when the key is
present, append otherwise. -/
def dictInsert (k : ℚ) (v : PolyQ) (d : List (ℚ × PolyQ)) : List (ℚ × PolyQ) :=
  if d.any (fun kv => decide (kv.1 = k)) then
    d.map (fun kv => if kv.1 = k then (k, v) else kv)
  else d ++ [(k, v)]

/-- The loop of `here_isolines_to_WGS84` (source lines 69-73):
`isolines[value] = decode(iso['polygons'][0]['outer'])` for each entry.
Indexing `polygons[0]` of an empty list raises IndexError (`none`). -/
def hereLoop {σ : Type} (decode : σ → PolyQ) :
    List (ℚ × PolyQ) → List (IsoEntry σ) → Option (List (ℚ × PolyQ))
  | d, [] => some d
  | d, e :: rest =>
    match e.polygons with
    | [] => none
    | p :: _ => hereLoop decode (dictInsert e.rangeValue (decode p) d) rest

/-- Embedding of `here_isolines_to_WGS84` (source lines 64-75): build the
range-value-keyed dict of decoded outer rings, starting from the empty
dict.  The decoded rings are stored exactly as the collaborator emits
them (ordered `(lat, lon)` rows). -/
def here_isolines_to_WGS84 {σ : Type} (decode : σ → PolyQ)
    (resp : List (IsoEntry σ)) : Option (List (ℚ × PolyQ)) :=
  hereLoop decode [] resp

/-- The literal recognized-unit list of `plot_isolines` (source lines
134-139). -/
def all_unit_tokens : List String :=
  ["s", "seconds", "min", "minutes", "hours", "h", "m", "meters", "km",
   "kilometers", "kms", "ft", "feet", "foot", "yard", "yrd", "yards",
   "mile", "miles", "mi", "mls"]

/-- The literal time-unit list used in the compatibility checks (source
lines 140 and 143). -/
def time_tokens : List String :=
  ["s", "seconds", "min", "minutes", "hours", "h"]

/-- The literal distance-unit list used in the compatibility checks (source
lines 140 and 143). -/
def distance_tokens : List String :=
  ["m", "meters", "km", "kilometers", "kms", "ft", "feet", "foot",
   "yard", "yrd", "yards", "mile", "miles", "mi", "mls"]

/-- Outcome of the four formatting checks of `plot_isolines` (source lines
133-145).  Each non-`ok` value corresponds to one print-and-return-None
branch, in source order. -/
inductive UnitCheck
  | badUnits
  | badAxUnits
  | timeVsDistance
  | distanceVsTime
  | ok
deriving DecidableEq

/-- Embedding of the validation chain of `plot_isolines` (source lines
133-145), with the source's exact membership tests: note they compare the
raw strings, without `.lower()`. -/
def check_units (units ax_units : String) : UnitCheck :=
  if units ∉ all_unit_tokens then .badUnits
  else if ax_units ∉ all_unit_tokens then .badAxUnits
  else if units ∈ time_tokens ∧ ax_units ∈ distance_tokens then .timeVsDistance
  else if units ∉ time_tokens ∧ ax_units ∉ distance_tokens then .distanceVsTime
  else .ok

/-- ASCII lowercasing of one character, as Python `str.lower` acts on the
unit tokens (which are all ASCII). -/
def lowerChar (c : Char) : Char :=
  if 65 ≤ c.toNat ∧ c.toNat ≤ 90 then Char.ofNat (c.toNat + 32) else c

/-- Python `str.lower()` on an ASCII token. -/
def pyLower (s : String) : String := ⟨s.data.map lowerChar⟩

/-- The source-unit conversion dispatch of `plot_isolines` (source lines
147-163): multiplicative factor to the base unit, selected on
`units.lower()`.  Falling through every branch leaves `values` unbound in
the source (NameError), modelled by `none`. -/
def source_factor (units : String) : Option ℚ :=
  let u := pyLower units
  if u ∈ ["s", "seconds"] then some 1
  else if u ∈ ["min", "minutes"] then some 60
  else if u ∈ ["hours", "h"] then some (60 * 60)
  else if u ∈ ["m", "meters"] then some 1
  else if u ∈ ["km", "kilometers", "kms"] then some 1000
  else if u ∈ ["ft", "feet", "foot"] then some (3048 / 10000)
  else if u ∈ ["yard", "yrd", "yards"] then some (9144 / 10000)
  else if u ∈ ["mile", "miles", "mi", "mls"] then some (1609344 / 1000)
  else none

/-- The display-unit conversion dispatch of `plot_isolines` (source lines
165-180): divisor from the base unit, selected on `ax_units.lower()`. -/
def axis_divisor (ax_units : String) : Option ℚ :=
  let u := pyLower ax_units
  if u ∈ ["s", "seconds"] then some 1
  else if u ∈ ["min", "minutes"] then some 60
  else if u ∈ ["hours", "h"] then some (60 * 60)
  else if u ∈ ["m", "meters"] then some 1
  else if u ∈ ["km", "kilometers", "kms"] then some 1000
  else if u ∈ ["ft", "feet", "foot"] then some (3048 / 10000)
  else if u ∈ ["yard", "yrd", "yards"] then some (9144 / 10000)
  else if u ∈ ["mile", "miles", "mi", "mls"] then some (1609344 / 1000)
  else none

/-- Most significant decimal digit of a natural number (`msdNat 0 = 0`):
repeatedly divide by 10. -/
def msdNat (n : ℕ) : ℕ :=
  if n < 10 then n else msdNat (n / 10)
termination_by n
decreasing_by exact Nat.div_lt_self (by omega) (by omega)

/-- Leading character test `str(x)[0] in ['1', '2', '5']` of `scale_number`
(source line 235), for the exact values the source feeds it: a negative
float prints `-` first (never a digit), a value in `[0, 1)` prints `0`
first, and a value `>= 1` prints its most significant digit first. -/
def leading_125 (x : ℚ) : Prop :=
  0 ≤ x ∧ (msdNat ⌊x⌋₊ = 1 ∨ msdNat ⌊x⌋₊ = 2 ∨ msdNat ⌊x⌋₊ = 5)

instance (x : ℚ) : Decidable (leading_125 x) := by
  unfold leading_125; infer_instance

/-- Python `int(x)`: truncation toward zero. -/
def py_int (x : ℚ) : ℤ := if 0 ≤ x then ⌊x⌋ else ⌈x⌉

/-- Python `round(x)` to an integer: round half to even. -/
def py_round (x : ℚ) : ℤ :=
  if x - ⌊x⌋ < 1 / 2 then ⌊x⌋
  else if 1 / 2 < x - ⌊x⌋ then ⌊x⌋ + 1
  else if ⌊x⌋ % 2 = 0 then ⌊x⌋ else ⌊x⌋ + 1

/-- Python `round(x, -ndim)` (source line 232): round to the nearest
multiple of `10^ndim`, half to even. -/
def py_round_to (x : ℚ) (ndim : ℤ) : ℚ :=
  (py_round (x / 10 ^ ndim) : ℚ) * 10 ^ ndim

/-- Fuel-driven search for the least `k ≥ 1` with `x * 10^k ≥ 1`; returns
`-k`.  Used for `floor(log10 x)` when `0 < x < 1`. -/
def negExpAux (fuel k : ℕ) (x : ℚ) : ℤ :=
  if fuel = 0 then -(k : ℤ)
  else if 1 ≤ x * 10 ^ k then -(k : ℤ)
  else negExpAux (fuel - 1) (k + 1) x
termination_by fuel
decreasing_by omega

/-- Decimal digit count of a natural number (`digitsNat 0 = 1`). -/
def digitsNat (n : ℕ) : ℕ :=
  if n < 10 then 1 else digitsNat (n / 10) + 1
termination_by n
decreasing_by exact Nat.div_lt_self (by omega) (by omega)

/-- Model of `int(np.floor(np.log10(x)))` (source line 231) over exact
rationals: digit count of the integer part minus one when `x ≥ 1`, the
negated least power lifting `x` to `1` when `0 < x < 1`.  `np.log10` of a
non-positive value is a domain error; the source never reaches that case,
and the model returns `0` there. -/
def log10floorQ (x : ℚ) : ℤ :=
  if 1 ≤ x then (digitsNat ⌊x⌋₊ : ℤ) - 1
  else if 0 < x then negExpAux ⌈x⁻¹⌉₊ 1 x
  else 0

/-- Embedding of the recursive helper `scale_number` of `scale_bar` (source
lines 234-236): return `int(x)` when the printed leading character is 1,
2 or 5, otherwise retry on `x - 10^ndim`.  The source recursion has no
other exit; `fuel` makes the model total, with `none` meaning the source
recursion has not returned within `fuel` calls. -/
def scale_number (ndim : ℤ) (fuel : ℕ) (x : ℚ) : Option ℤ :=
  if fuel = 0 then none
  else if leading_125 x then some (py_int x)
  else scale_number ndim (fuel - 1) (x - 10 ^ ndim)
termination_by fuel
decreasing_by omega

/-- The automatic scale-bar length computation of `scale_bar` (source lines
229-237), for a metric viewport span `x1 - x0`: candidate `span / 5000`
kilometers, rounded to one significant figure, then passed to
`scale_number`. -/
def scale_bar_length (span : ℚ) (fuel : ℕ) : Option ℤ :=
  let length := span / 5000
  let ndim := log10floorQ length
  scale_number ndim fuel (py_round_to length ndim)

lemma scale_number_zero (ndim : ℤ) (x : ℚ) : scale_number ndim 0 x = none := by
  rw [scale_number]; simp

lemma scale_number_done (ndim : ℤ) (fuel : ℕ) (x : ℚ) (hf : fuel ≠ 0)
    (h : leading_125 x) : scale_number ndim fuel x = some (py_int x) := by
  rw [scale_number]; simp [hf, h]

lemma scale_number_step (ndim : ℤ) (fuel : ℕ) (x : ℚ) (hf : fuel ≠ 0)
    (h : ¬ leading_125 x) :
    scale_number ndim fuel x = scale_number ndim (fuel - 1) (x - 10 ^ ndim) := by
  rw [scale_number]; simp [hf, h]

lemma msdNat_lt_ten {n : ℕ} (h : n < 10) : msdNat n = n := by
  rw [msdNat]; simp [h]

lemma msdNat_div_ten {n : ℕ} (h : 10 ≤ n) : msdNat n = msdNat (n / 10) := by
  rw [msdNat]; simp [Nat.not_lt.mpr h]

lemma msdNat_mul_pow (d : ℕ) (h1 : 1 ≤ d) (h9 : d ≤ 9) :
    ∀ n : ℕ, msdNat (d * 10 ^ n) = d := by
  intro n
  induction n with
  | zero => simpa using msdNat_lt_ten (show d < 10 by omega)
  | succ k ih =>
    have hpos : 0 < d * 10 ^ k := Nat.mul_pos (by omega) (pow_pos (by omega) k)
    have h10 : 10 ≤ d * 10 ^ (k + 1) := by
      calc 10 = 1 * 10 := (one_mul 10).symm
      _ ≤ (d * 10 ^ k) * 10 := Nat.mul_le_mul_right 10 hpos
      _ = d * 10 ^ (k + 1) := by ring
    rw [msdNat_div_ten h10,
      show d * 10 ^ (k + 1) / 10 = d * 10 ^ k by
        rw [pow_succ, ← mul_assoc, Nat.mul_div_cancel _ (by omega)],
      ih]

lemma nat_floor_cast_mul_pow (d n : ℕ) : ⌊((d : ℚ) * 10 ^ n)⌋₊ = d * 10 ^ n := by
  rw [show ((d : ℚ) * 10 ^ n) = ((d * 10 ^ n : ℕ) : ℚ) by push_cast; ring,
    Nat.floor_natCast]

lemma leading_125_dpow (d n : ℕ) (h1 : 1 ≤ d) (h9 : d ≤ 9) :
    leading_125 ((d : ℚ) * 10 ^ n) ↔ (d = 1 ∨ d = 2 ∨ d = 5) := by
  have h0 : (0 : ℚ) ≤ (d : ℚ) * 10 ^ n := by positivity
  simp [leading_125, h0, nat_floor_cast_mul_pow, msdNat_mul_pow d h1 h9 n]

lemma py_int_natCast (m : ℕ) : py_int ((m : ℚ)) = (m : ℤ) := by
  simp [py_int]

lemma sn_done_at (ndim : ℤ) (fuel : ℕ) (hf : fuel ≠ 0) (x : ℚ) (d n : ℕ) (v : ℤ)
    (hx : x = (d : ℚ) * 10 ^ n) (h1 : 1 ≤ d) (h9 : d ≤ 9)
    (hyes : d = 1 ∨ d = 2 ∨ d = 5) (hv : v = ((d * 10 ^ n : ℕ) : ℤ)) :
    scale_number ndim fuel x = some v := by
  subst hx
  rw [scale_number_done ndim fuel _ hf ((leading_125_dpow d n h1 h9).mpr hyes)]
  rw [show ((d : ℚ) * 10 ^ n) = ((d * 10 ^ n : ℕ) : ℚ) by push_cast; ring,
    py_int_natCast, hv]

lemma sn_step_at (ndim : ℤ) (fuel : ℕ) (hf : fuel ≠ 0) (x y : ℚ) (d n : ℕ)
    (hx : x = (d : ℚ) * 10 ^ n) (h1 : 1 ≤ d) (h9 : d ≤ 9)
    (hno : ¬(d = 1 ∨ d = 2 ∨ d = 5)) (hy : y = x - 10 ^ ndim) :
    scale_number ndim fuel x = scale_number ndim (fuel - 1) y := by
  subst hx
  rw [scale_number_step ndim fuel _ hf
    (by rw [leading_125_dpow d n h1 h9]; exact hno), hy]

lemma scale_number_stuck_below_one (ndim : ℤ) (fuel : ℕ) (x : ℚ) (hx : x < 1) :
    scale_number ndim fuel x = none := by
  induction fuel generalizing x with
  | zero => exact scale_number_zero ndim x
  | succ f ih =>
    have hmsd0 : msdNat 0 = 0 := by rw [msdNat]; norm_num
    have hn : ¬ leading_125 x := by
      rintro ⟨h0, h125⟩
      rw [Nat.floor_eq_zero.mpr hx, hmsd0] at h125
      omega
    rw [scale_number_step ndim (f + 1) x (by omega) hn]
    have hp : (0 : ℚ) < 10 ^ ndim := by positivity
    simpa using ih (x - 10 ^ ndim) (by linarith)

lemma sn_dpow_descend (n : ℕ) :
    ∀ d : ℕ, 1 ≤ d → d ≤ 9 → ∀ fuel : ℕ, d ≤ fuel →
      ∃ d', (d' = 1 ∨ d' = 2 ∨ d' = 5) ∧
        scale_number (n : ℤ) fuel ((d : ℚ) * 10 ^ n) = some ((d' * 10 ^ n : ℕ) : ℤ) := by
  intro d
  induction d using Nat.strong_induction_on with
  | _ d ih =>
    intro h1 h9 fuel hfuel
    by_cases hyes : d = 1 ∨ d = 2 ∨ d = 5
    · exact ⟨d, hyes, sn_done_at (n : ℤ) fuel (by omega) _ d n _ rfl h1 h9 hyes rfl⟩
    · obtain ⟨d', hd', heq⟩ := ih (d - 1) (by omega) (by omega) (by omega) (fuel - 1) (by omega)
      refine ⟨d', hd', ?_⟩
      rw [sn_step_at (n : ℤ) fuel (by omega) _ (((d - 1 : ℕ) : ℚ) * 10 ^ n) d n rfl h1 h9 hyes
        (by rw [zpow_natCast]; push_cast [h1]; ring), heq]

/-- C6 (amended): the recursive nice-number search has no `DegenerateSpanError`
guard.  For every rounded one-significant-figure candidate `d * 10^n`
(`1 ≤ d ≤ 10`, `n = ndigits ≥ 0`) the recursion does terminate, returning a
value whose leading decimal digit is 1, 2 or 5; but for every candidate
below 1 (any `x < 1`, as produced by sub-kilometer viewport spans) the
recursion never returns, for any recursion budget: the leading printed
character of such a value is `'0'` or `'-'`, never a digit in `{1,2,5}`. -/
theorem c6_scale_number_amended :
    (∀ n d : ℕ, 1 ≤ d → d ≤ 10 →
      ∃ v : ℕ, scale_number (n : ℤ) 10 ((d : ℚ) * 10 ^ n) = some ((v : ℕ) : ℤ) ∧
        (msdNat v = 1 ∨ msdNat v = 2 ∨ msdNat v = 5)) ∧
    (∀ (ndim : ℤ) (fuel : ℕ) (x : ℚ), x < 1 → scale_number ndim fuel x = none) := by
  constructor
  · intro n d h1 h10
    by_cases hd : d ≤ 9
    · obtain ⟨d', hd', heq⟩ := sn_dpow_descend n d h1 hd 10 (by omega)
      refine ⟨d' * 10 ^ n, heq, ?_⟩
      rw [msdNat_mul_pow d' (by omega) (by omega) n]
      omega
    · have hd10 : d = 10 := by omega
      subst hd10
      refine ⟨1 * 10 ^ (n + 1), ?_, ?_⟩
      · exact sn_done_at (n : ℤ) 10 (by omega) _ 1 (n + 1) _
          (by push_cast; ring) (by omega) (by omega) (by omega) rfl
      · rw [msdNat_mul_pow 1 (by omega) (by omega) (n + 1)]
        omega
  · exact fun ndim fuel x hx => scale_number_stuck_below_one ndim fuel x hx

/-- Witness for C6 (amended), at `n = 0`, `d = 9` (terminates at 5) and at
the sub-unit candidate `3/10` with recursion budget 5 (never returns). -/
theorem c6_scale_number_amended_witness :
    (∃ v : ℕ, scale_number ((0 : ℕ) : ℤ) 10 (((9 : ℕ) : ℚ) * 10 ^ (0 : ℕ)) = some ((v : ℕ) : ℤ) ∧
      (msdNat v = 1 ∨ msdNat v = 2 ∨ msdNat v = 5)) ∧
    scale_number (-1) 5 (3 / 10) = none :=
  ⟨c6_scale_number_amended.1 0 9 (by omega) (by omega),
   c6_scale_number_amended.2 (-1) 5 (3 / 10) (by norm_num)⟩

/-- Counterexample to C6 as stated: for the positive candidate length
`0.3` km (viewport span 1500 m), the search neither returns a `{1,2,5}`-led
value nor any error value — here shown exhausting a budget of 1000
recursive calls (the amended theorem shows every budget is exhausted):
there is no `DegenerateSpanError` guard in the code. -/
theorem c6_counterexample : scale_bar_length 1500 1000 = none := by
  have h1 : (1500 : ℚ) / 5000 = 3 / 10 := by norm_num
  have hc : ⌈((3 : ℚ) / 10)⁻¹⌉₊ = 4 := by
    rw [show ((3 : ℚ) / 10)⁻¹ = 10 / 3 by norm_num, Nat.ceil_eq_iff (by omega)]
    norm_num
  have h2 : log10floorQ (3 / 10) = -1 := by
    rw [log10floorQ, if_neg (by norm_num), if_pos (by norm_num), hc, negExpAux]
    norm_num
  have h3 : py_round_to (3 / 10) (-1) = 3 / 10 := by
    have harg : (3 / 10 : ℚ) / 10 ^ (-1 : ℤ) = 3 := by norm_num
    rw [py_round_to, harg, py_round]
    norm_num
  rw [scale_bar_length, h1, h2, h3]
  exact scale_number_stuck_below_one (-1) 1000 (3 / 10) (by norm_num)

/-- C7: with no explicit length, the scale-bar candidate is
`span / 5000` km, rounded to one significant figure with
`ndigits = floor(log10(candidate))`, then decremented by `10^ndigits`
until its leading digit is 1, 2 or 5.  Raw candidates 13, 47 and 1900
(spans 65000, 235000, 9500000 m) yield 10, 50 and 2000; candidate 80
(span 400000 m) is decremented 80 → 70 → 60 → 50. -/
theorem c7_scale_bar_concrete :
    scale_bar_length 65000 20 = some 10 ∧
    scale_bar_length 235000 20 = some 50 ∧
    scale_bar_length 9500000 20 = some 2000 ∧
    scale_bar_length 400000 20 = some 50 := by
  refine ⟨?_, ?_, ?_, ?_⟩
  · rw [scale_bar_length, show (65000 : ℚ) / 5000 = 13 by norm_num]
    have hlog : log10floorQ 13 = 1 := by
      rw [log10floorQ, if_pos (by norm_num), show ⌊(13 : ℚ)⌋₊ = 13 by norm_num,
        digitsNat, digitsNat]
      norm_num
    have hround : py_round_to 13 1 = 10 := by
      rw [py_round_to, show (13 : ℚ) / 10 ^ (1 : ℤ) = 13 / 10 by norm_num, py_round]
      norm_num
    rw [hlog, hround]
    exact sn_done_at 1 20 (by omega) 10 1 1 10 (by push_cast; norm_num)
      (by omega) (by omega) (by omega) (by norm_num)
  · rw [scale_bar_length, show (235000 : ℚ) / 5000 = 47 by norm_num]
    have hlog : log10floorQ 47 = 1 := by
      rw [log10floorQ, if_pos (by norm_num), show ⌊(47 : ℚ)⌋₊ = 47 by norm_num,
        digitsNat, digitsNat]
      norm_num
    have hround : py_round_to 47 1 = 50 := by
      rw [py_round_to, show (47 : ℚ) / 10 ^ (1 : ℤ) = 47 / 10 by norm_num, py_round]
      norm_num
    rw [hlog, hround]
    exact sn_done_at 1 20 (by omega) 50 5 1 50 (by push_cast; norm_num)
      (by omega) (by omega) (by omega) (by norm_num)
  · rw [scale_bar_length, show (9500000 : ℚ) / 5000 = 1900 by norm_num]
    have hlog : log10floorQ 1900 = 3 := by
      rw [log10floorQ, if_pos (by norm_num), show ⌊(1900 : ℚ)⌋₊ = 1900 by norm_num,
        digitsNat, digitsNat, digitsNat, digitsNat]
      norm_num
    have hround : py_round_to 1900 3 = 2000 := by
      rw [py_round_to, show (1900 : ℚ) / 10 ^ (3 : ℤ) = 19 / 10 by norm_num, py_round]
      norm_num
    rw [hlog, hround]
    exact sn_done_at 3 20 (by omega) 2000 2 3 2000 (by push_cast; norm_num)
      (by omega) (by omega) (by omega) (by norm_num)
  · rw [scale_bar_length, show (400000 : ℚ) / 5000 = 80 by norm_num]
    have hlog : log10floorQ 80 = 1 := by
      rw [log10floorQ, if_pos (by norm_num), show ⌊(80 : ℚ)⌋₊ = 80 by norm_num,
        digitsNat, digitsNat]
      norm_num
    have hround : py_round_to 80 1 = 80 := by
      rw [py_round_to, show (80 : ℚ) / 10 ^ (1 : ℤ) = 8 by norm_num, py_round]
      norm_num
    rw [hlog, hround]
    rw [sn_step_at 1 20 (by omega) 80 70 8 1 (by push_cast; norm_num)
      (by omega) (by omega) (by omega) (by norm_num)]
    rw [sn_step_at 1 (20 - 1) (by omega) 70 60 7 1 (by push_cast; norm_num)
      (by omega) (by omega) (by omega) (by norm_num)]
    rw [sn_step_at 1 (20 - 1 - 1) (by omega) 60 50 6 1 (by push_cast; norm_num)
      (by omega) (by omega) (by omega) (by norm_num)]
    exact sn_done_at 1 (20 - 1 - 1 - 1) (by omega) 50 5 1 50 (by push_cast; norm_num)
      (by omega) (by omega) (by omega) (by norm_num)

/-- C4: every time-category token against every distance-category token is
rejected, in both orders — the first incompatibility branch catches
time-source against distance-target, the second catches distance-source
against time-target. -/
theorem c4_cross_category_rejected (u a : String)
    (hu : u ∈ time_tokens) (ha : a ∈ distance_tokens) :
    check_units u a = UnitCheck.timeVsDistance ∧
    check_units a u = UnitCheck.distanceVsTime := by
  fin_cases hu <;> fin_cases ha <;> exact ⟨by decide, by decide⟩

/-- Witness for C4 at the claim's concrete pair: minutes vs km, both
orders rejected. -/
theorem c4_cross_category_rejected_witness :
    check_units ("minutes") ("km") = UnitCheck.timeVsDistance ∧
    check_units ("km") ("minutes") = UnitCheck.distanceVsTime :=
  c4_cross_category_rejected ("minutes") ("km") (by decide) (by decide)

/-- C5 (code bug): the validation membership tests compare the raw token
against lowercase literals, so any non-lowercase spelling of a recognized
token is rejected up front (`badUnits` / `badAxUnits`), even though the
conversion dispatch below applies `.lower()` and would treat `"Seconds"`
exactly like `"seconds"`.  The case-insensitive conversion code is
unreachable for non-lowercase tokens. -/
theorem c5_case_sensitivity_bug :
    check_units ("Seconds") ("minutes") = UnitCheck.badUnits ∧
    check_units ("seconds") ("Minutes") = UnitCheck.badAxUnits ∧
    check_units ("KM") ("km") = UnitCheck.badUnits ∧
    check_units ("seconds") ("minutes") = UnitCheck.ok ∧
    source_factor ("Seconds") = source_factor ("seconds") ∧
    source_factor ("Seconds") = some 1 := by
  refine ⟨by decide, by decide, by decide, by decide, by decide, by decide⟩

lemma map_const_replicate {α β : Type} (b : β) :
    ∀ l : List α, l.map (fun _ => b) = List.replicate l.length b
  | [] => rfl
  | x :: xs => by simp [map_const_replicate b xs, List.replicate_succ]

lemma mkCodes_eq (poly : PolyQ) (h : poly ≠ []) :
    mkCodes poly = some (spec_boundary_codes poly) := by
  cases poly with
  | nil => exact absurd rfl h
  | cons x rest =>
    simp [mkCodes, spec_boundary_codes, map_const_replicate]

lemma patch_between_eq (p q : PolyQ) (hp : p ≠ []) (hq : q ≠ []) :
    patch_between p q = some (spec_region p q) := by
  unfold patch_between
  rw [mkCodes_eq p hp, mkCodes_eq q hq]
  rfl

lemma buildRest_eq : ∀ (rs : List PolyQ) (prev : PolyQ), prev ≠ [] →
    (∀ r ∈ rs, r ≠ []) →
    buildRest prev rs = some (List.zipWith spec_region rs (prev :: rs)) := by
  intro rs
  induction rs with
  | nil => intro prev _ _; rfl
  | cons r rs ih =>
    intro prev hprev hall
    have hr : r ≠ [] := hall r (by simp)
    simp only [buildRest]
    rw [patch_between_eq r prev hr hprev,
      ih r hr (fun x hx => hall x (by simp [hx]))]
    rfl

/-- C1: for every nonempty sequence of nonempty rings, the plotting loop
emits exactly one region per ring: region 0 is the first ring alone with a
single move marker and line markers (no inner boundary), and region `i`
(`i ≥ 1`) is one compound path whose vertices are ring `i` in natural
order followed by ring `i-1` reversed, whose code list restarts a move
marker at the head of each of the two boundaries (so the boundaries are
never joined by a line segment). -/
theorem c1_annulus_regions (rings : List PolyQ) (hne : rings ≠ [])
    (hall : ∀ r ∈ rings, r ≠ []) :
    buildAnnuli rings = some (spec_regions rings) ∧
    (spec_regions rings).length = rings.length := by
  cases rings with
  | nil => exact absurd rfl hne
  | cons r rs =>
    have hr : r ≠ [] := hall r (by simp)
    constructor
    · simp only [buildAnnuli]
      rw [show simplePatch r = some ⟨r, spec_boundary_codes r⟩ by
            simp [simplePatch, mkCodes_eq r hr],
        buildRest_eq rs r hr (fun x hx => hall x (by simp [hx]))]
      rfl
    · simp [spec_regions]

/-- Witness for C1 at two concrete triangles: the inner ring gives the
simple region, the outer ring gives one compound path with the inner
ring's points reversed and a fresh move marker. -/
theorem c1_annulus_regions_witness :
    buildAnnuli [[(0, 0), (2, 0), (0, 2)], [(0, 0), (5, 0), (0, 5)]] =
      some [⟨[(0, 0), (2, 0), (0, 2)],
             [PathCode.moveto, PathCode.lineto, PathCode.lineto]⟩,
            ⟨[(0, 0), (5, 0), (0, 5), (0, 2), (2, 0), (0, 0)],
             [PathCode.moveto, PathCode.lineto, PathCode.lineto,
              PathCode.moveto, PathCode.lineto, PathCode.lineto]⟩] :=
  ((c1_annulus_regions [[(0, 0), (2, 0), (0, 2)], [(0, 0), (5, 0), (0, 5)]]
    (by simp) (by simp)).1).trans (by decide)

lemma find_extent_nil : find_extent [] (1 / 10) = some [.nan, .nan, .nan, .nan] := by
  norm_num [find_extent, scanLoop, initState, RFloat.mul, RFloat.abs, RFloat.sub,
    RFloat.add, RFloat.neg]

/-- Counterexample to C8 as stated: neither empty-input call fails —
`find_extent([], 0.1)` returns a value (no `EmptyInputError`), and the
plotting loop over an empty ring sequence returns a value (no
`InsufficientRingsError`). -/
theorem c8_counterexample :
    find_extent [] (1 / 10) ≠ none ∧ buildAnnuli [] ≠ none := by
  refine ⟨?_, ?_⟩
  · rw [find_extent_nil]; simp
  · rw [show buildAnnuli [] = some [] from rfl]; simp

/-- C8 (amended): there are no empty-input guards.  `find_extent([], 0.1)`
returns the degenerate extent `[nan, nan, nan, nan]` computed from the
`±inf` scan initializers (`inf - inf`), and the plotting loop over an
empty ring sequence returns the empty region list; neither reports a
typed error. -/
theorem c8_empty_input_amended :
    find_extent [] (1 / 10) = some [.nan, .nan, .nan, .nan] ∧
    buildAnnuli [] = some [] :=
  ⟨find_extent_nil, rfl⟩

lemma dictInsert_fresh (k : ℚ) (v : PolyQ) (d : List (ℚ × PolyQ))
    (h : k ∉ d.map Prod.fst) : dictInsert k v d = d ++ [(k, v)] := by
  have hany : ¬ (d.any (fun kv => decide (kv.1 = k)) = true) := by
    simp only [List.any_eq_true, decide_eq_true_eq]
    rintro ⟨kv, hkv, hk⟩
    exact h (List.mem_map.mpr ⟨kv, hkv, hk⟩)
  rw [dictInsert, if_neg hany]

lemma hereLoop_distinct {σ : Type} (decode : σ → PolyQ) :
    ∀ (resp : List (IsoEntry σ)) (d0 : List (ℚ × PolyQ)),
      (∀ e ∈ resp, e.polygons ≠ []) →
      ((d0.map Prod.fst) ++ resp.map IsoEntry.rangeValue).Nodup →
      ∃ d, hereLoop decode d0 resp = some d ∧
        d.map Prod.fst = d0.map Prod.fst ++ resp.map IsoEntry.rangeValue ∧
        d.length = d0.length + resp.length := by
  intro resp
  induction resp with
  | nil => intro d0 _ _; exact ⟨d0, rfl, by simp, by simp⟩
  | cons e rest ih =>
    intro d0 hpoly hnd
    obtain ⟨p, ps, hp⟩ : ∃ p ps, e.polygons = p :: ps := by
      cases hpe : e.polygons with
      | nil => exact absurd hpe (hpoly e (by simp))
      | cons p ps => exact ⟨p, ps, rfl⟩
    have hk : e.rangeValue ∉ d0.map Prod.fst := by
      rw [List.nodup_append] at hnd
      intro hmem
      exact hnd.2.2 hmem (by simp)
    have hstep : hereLoop decode d0 (e :: rest) =
        hereLoop decode (dictInsert e.rangeValue (decode p) d0) rest := by
      simp only [hereLoop, hp]
    rw [hstep, dictInsert_fresh _ _ _ hk]
    have hnd2 : (((d0 ++ [(e.rangeValue, decode p)]).map Prod.fst) ++
        rest.map IsoEntry.rangeValue).Nodup := by
      simpa [List.append_assoc] using hnd
    obtain ⟨d, hd, hmap, hlen⟩ := ih (d0 ++ [(e.rangeValue, decode p)])
      (fun x hx => hpoly x (by simp [hx])) hnd2
    refine ⟨d, hd, ?_, ?_⟩
    · rw [hmap]; simp
    · rw [hlen]; simp; omega

/-- C9 (amended): duplicate range values do not fail — the later entry
silently overwrites the earlier one in the dict (last decode wins, first
position kept), so no `DuplicateRangeValueError` exists; when all range
values are distinct, a response with `n` entries yields an `IsolineSet`
of size `n` keyed by each entry's declared range value, in response
order. -/
theorem c9_decode_amended {σ : Type} (decode : σ → PolyQ)
    (resp : List (IsoEntry σ)) (hpoly : ∀ e ∈ resp, e.polygons ≠ [])
    (hnd : (resp.map IsoEntry.rangeValue).Nodup) :
    ∃ d, here_isolines_to_WGS84 decode resp = some d ∧
      d.map Prod.fst = resp.map IsoEntry.rangeValue ∧
      d.length = resp.length := by
  simpa [here_isolines_to_WGS84] using
    hereLoop_distinct decode resp [] hpoly (by simpa using hnd)

/-- Witness for C9 (amended) at a concrete 3-entry response with distinct
range values 10, 20, 30: the decoded set has size 3, keyed by those
values. -/
theorem c9_decode_amended_witness :
    ∃ d, here_isolines_to_WGS84 (fun q : ℚ => [(q, q)])
        [⟨10, [1]⟩, ⟨20, [2]⟩, ⟨30, [3]⟩] = some d ∧
      d.map Prod.fst = [(10 : ℚ), 20, 30] ∧ d.length = 3 := by
  obtain ⟨d, h1, h2, h3⟩ := c9_decode_amended (fun q : ℚ => [(q, q)])
    [⟨10, [1]⟩, ⟨20, [2]⟩, ⟨30, [3]⟩] (by simp) (by decide)
  exact ⟨d, h1, by simpa using h2, by simpa using h3⟩

/-- Counterexample to C9 as stated: a 3-entry response whose first two
entries share range value 10 does not fail with any error — it returns
normally, the second entry overwriting the first (its ring decoded from
payload 2 replaces the one from payload 1, keeping the original
position), leaving a set of size 2. -/
theorem c9_counterexample :
    here_isolines_to_WGS84 (fun q : ℚ => [(q, q)])
      [⟨10, [1]⟩, ⟨10, [2]⟩, ⟨20, [3]⟩] =
      some [(10, [(2, 2)]), (20, [(3, 3)])] := by
  decide

lemma plotPolygons_eq (d : List (ℚ × PolyQ)) (hnd : (d.map Prod.fst).Nodup) :
    plotPolygons d = d.map (fun kv => swapRing kv.2) := by
  induction d with
  | nil => rfl
  | cons kv rest ih =>
    rw [List.map_cons] at hnd
    obtain ⟨hk, hrest⟩ := List.nodup_cons.mp hnd
    simp only [plotPolygons, List.map_cons]
    congr 1
    · simp [dictLookup]
    · have hlook : ∀ v ∈ rest.map Prod.fst,
          dictLookup (kv :: rest) v = dictLookup rest v := by
        intro v hv
        have hne : ¬ (kv.1 = v) := fun h => hk (h ▸ hv)
        simp [dictLookup, List.find?, hne]
      rw [List.map_congr_left (fun v hv => by rw [hlook v hv])]
      exact ih hrest

/-- C2 (amended): `plot_isolines` consumes `list(isolines.keys())` in dict
insertion order and never sorts; for distinct keys, the built region
sequence depends only on the sequence of rings in insertion order (the
numeric key values are irrelevant to the regions), and — per the
counterexample — reordering the insertions changes the output. -/
theorem c2_insertion_order_amended (d1 d2 : List (ℚ × PolyQ))
    (h1 : (d1.map Prod.fst).Nodup) (h2 : (d2.map Prod.fst).Nodup)
    (hv : d1.map Prod.snd = d2.map Prod.snd) :
    plot_isolines_regions d1 = plot_isolines_regions d2 := by
  rw [plot_isolines_regions, plot_isolines_regions,
    plotPolygons_eq d1 h1, plotPolygons_eq d2 h2]
  have hc := congrArg (List.map swapRing) hv
  rw [List.map_map, List.map_map] at hc
  exact congrArg buildAnnuli hc

/-- Witness for C2 (amended): replacing keys 10, 20 by 30, 40 while keeping
the same rings in the same insertion order leaves the regions unchanged. -/
theorem c2_insertion_order_amended_witness :
    plot_isolines_regions [(10, [(0, 0), (1, 0), (0, 1)]), (20, [(0, 0), (2, 0), (0, 2)])] =
    plot_isolines_regions [(30, [(0, 0), (1, 0), (0, 1)]), (40, [(0, 0), (2, 0), (0, 2)])] :=
  c2_insertion_order_amended _ _ (by decide) (by decide) (by decide)

/-- Counterexample to C2 as stated: the same two-ring mapping inserted in
ascending versus descending range order produces different region
sequences — the rings are consumed in insertion order, not sorted
ascending by range value. -/
theorem c2_counterexample :
    plot_isolines_regions [(10, [(0, 0), (1, 0), (0, 1)]), (20, [(0, 0), (2, 0), (0, 2)])] ≠
    plot_isolines_regions [(20, [(0, 0), (2, 0), (0, 2)]), (10, [(0, 0), (1, 0), (0, 1)])] := by
  decide

lemma swapRing_map_fst (l : PolyQ) : (swapRing l).map Prod.fst = l.map Prod.snd := by
  simp only [swapRing, List.map_map]
  rfl

lemma swapRing_map_snd (l : PolyQ) : (swapRing l).map Prod.snd = l.map Prod.fst := by
  simp only [swapRing, List.map_map]
  rfl

lemma stepPoly_swap (s : ExtentState) (p : PolyQ) :
    stepPoly (axes_swapped s) (swapRing p) = (stepPoly s p).map axes_swapped := by
  simp only [stepPoly, swapRing_map_fst, swapRing_map_snd]
  cases hfM : (p.map Prod.fst).max? <;> cases hfm : (p.map Prod.fst).min? <;>
    cases hsM : (p.map Prod.snd).max? <;> cases hsm : (p.map Prod.snd).min? <;>
    simp [axes_swapped]

lemma scanLoop_swap : ∀ (polys : List PolyQ) (s : ExtentState),
    scanLoop (axes_swapped s) (polys.map swapRing) =
      (scanLoop s polys).map axes_swapped := by
  intro polys
  induction polys with
  | nil => intro s; rfl
  | cons p ps ih =>
    intro s
    simp only [List.map_cons, scanLoop, stepPoly_swap]
    cases stepPoly s p with
    | none => rfl
    | some s2 => simpa using ih s2

/-- C10: the decoder stores each ring exactly as the collaborator emits it
(ordered `(lat, lon)` rows, see `here_isolines_to_WGS84`); `plot_isolines`
swaps every point to `(lon, lat)` while preserving the number of points
and their order (the `i`-th point of the swapped ring is the swap of the
`i`-th original point); and a consumer expecting `(lon, lat)` columns —
`find_extent` per its own docstring — fed column-swapped input computes
its longitude registers from the latitudes and vice versa (swapped
axes). -/
theorem c10_coordinate_order :
    (∀ d : List (ℚ × PolyQ), (d.map Prod.fst).Nodup →
        plotPolygons d = d.map (fun kv => swapRing kv.2)) ∧
    (∀ (r : PolyQ) (i : ℕ), (swapRing r).length = r.length ∧
        (swapRing r)[i]? = (r[i]?).map Prod.swap) ∧
    (∀ polys : List PolyQ,
        scanLoop initState (polys.map swapRing) =
          (scanLoop initState polys).map axes_swapped) := by
  refine ⟨fun d hnd => plotPolygons_eq d hnd, ?_, ?_⟩
  · intro r i
    exact ⟨by simp [swapRing], by simp [swapRing, List.getElem?_map]⟩
  · intro polys
    simpa [show axes_swapped initState = initState from rfl] using
      scanLoop_swap polys initState

/-- Witness for C10 at a concrete one-ring mapping: the plotted polygon is
the column-swapped ring, indexing commutes with the swap, and the extent
scan of the swapped input is the axis-exchanged scan of the original. -/
theorem c10_coordinate_order_witness :
    plotPolygons [(10, [(1, 2), (3, 4)])] = [[(2, 1), (4, 3)]] ∧
    (swapRing [(1, 2), (3, 4)])[1]? = some ((4 : ℚ), (3 : ℚ)) ∧
    scanLoop initState ([[(1, 2), (3, 4)]].map swapRing) =
      (scanLoop initState [[(1, 2), (3, 4)]]).map axes_swapped := by
  refine ⟨?_, ?_, c10_coordinate_order.2.2 [[(1, 2), (3, 4)]]⟩
  · rw [c10_coordinate_order.1 [(10, [(1, 2), (3, 4)])] (by decide)]
    decide
  · rw [(c10_coordinate_order.2.1 [(1, 2), (3, 4)] 1).2]
    decide

lemma foldl_max_pull : ∀ (l : List ℚ) (a x : ℚ),
    l.foldl max (max a x) = max a (l.foldl max x)
  | [], _, _ => rfl
  | y :: ys, a, x => by
    simp only [List.foldl_cons]
    rw [max_assoc]
    exact foldl_max_pull ys a (max x y)

lemma foldl_min_pull : ∀ (l : List ℚ) (a x : ℚ),
    l.foldl min (min a x) = min a (l.foldl min x)
  | [], _, _ => rfl
  | y :: ys, a, x => by
    simp only [List.foldl_cons]
    rw [min_assoc]
    exact foldl_min_pull ys a (min x y)

lemma le_foldl_max : ∀ (l : List ℚ) (x : ℚ), x ≤ l.foldl max x
  | [], x => le_refl x
  | y :: ys, x => by
    simp only [List.foldl_cons]
    exact le_trans (le_max_left x y) (le_foldl_max ys (max x y))

lemma foldl_min_le : ∀ (l : List ℚ) (x : ℚ), l.foldl min x ≤ x
  | [], x => le_refl x
  | y :: ys, x => by
    simp only [List.foldl_cons]
    exact le_trans (foldl_min_le ys (min x y)) (min_le_left x y)

lemma foldl_min_le_foldl_max (l : List ℚ) (x : ℚ) : l.foldl min x ≤ l.foldl max x :=
  le_trans (foldl_min_le l x) (le_foldl_max l x)

lemma ite_gtb_max (A m : ℚ) :
    (if RFloat.gtb (.fin m) (.fin A) then RFloat.fin m else .fin A) = .fin (max A m) := by
  simp only [RFloat.gtb]
  rcases le_or_lt m A with h | h
  · rw [if_neg (by simpa using not_lt.mpr h), max_eq_left h]
  · rw [if_pos (by simpa using h), max_eq_right (le_of_lt h)]

lemma ite_ltb_min (B m : ℚ) :
    (if RFloat.ltb (.fin m) (.fin B) then RFloat.fin m else .fin B) = .fin (min B m) := by
  simp only [RFloat.ltb, RFloat.gtb]
  rcases le_or_lt B m with h | h
  · rw [if_neg (by simpa using not_lt.mpr h), min_eq_left h]
  · rw [if_pos (by simpa using h), min_eq_right (le_of_lt h)]

lemma stepPoly_fin (A B C D : ℚ) (x : ℚ × ℚ) (xs : PolyQ) :
    stepPoly ⟨.fin A, .fin B, .fin C, .fin D⟩ (x :: xs) =
      some ⟨.fin (max A ((xs.map Prod.fst).foldl max x.1)),
            .fin (min B ((xs.map Prod.fst).foldl min x.1)),
            .fin (max C ((xs.map Prod.snd).foldl max x.2)),
            .fin (min D ((xs.map Prod.snd).foldl min x.2))⟩ := by
  simp only [stepPoly, List.map_cons]
  rw [show ((x.1 :: (xs.map Prod.fst)).max?) = some ((xs.map Prod.fst).foldl max x.1) from rfl,
    show ((x.1 :: (xs.map Prod.fst)).min?) = some ((xs.map Prod.fst).foldl min x.1) from rfl,
    show ((x.2 :: (xs.map Prod.snd)).max?) = some ((xs.map Prod.snd).foldl max x.2) from rfl,
    show ((x.2 :: (xs.map Prod.snd)).min?) = some ((xs.map Prod.snd).foldl min x.2) from rfl]
  simp [ite_gtb_max, ite_ltb_min]

lemma scanLoop_fin : ∀ (ps : List PolyQ), (∀ p ∈ ps, p ≠ []) → ∀ A B C D : ℚ,
    scanLoop ⟨.fin A, .fin B, .fin C, .fin D⟩ ps =
      some ⟨.fin (((ps.flatten).map Prod.fst).foldl max A),
            .fin (((ps.flatten).map Prod.fst).foldl min B),
            .fin (((ps.flatten).map Prod.snd).foldl max C),
            .fin (((ps.flatten).map Prod.snd).foldl min D)⟩ := by
  intro ps
  induction ps with
  | nil => intro _ A B C D; rfl
  | cons p ps ih =>
    intro hall A B C D
    obtain ⟨x, xs, rfl⟩ : ∃ x xs, p = x :: xs := by
      cases p with
      | nil => exact absurd rfl (hall [] (by simp))
      | cons x xs => exact ⟨x, xs, rfl⟩
    have hall2 : ∀ q ∈ ps, q ≠ [] := fun q hq => hall q (by simp [hq])
    simp only [scanLoop, stepPoly_fin]
    rw [ih hall2]
    simp only [List.flatten_cons, List.map_append, List.map_cons, List.foldl_append,
      List.foldl_cons, foldl_max_pull, foldl_min_pull]

lemma RFloat.sub_fin (a b : ℚ) : RFloat.sub (.fin a) (.fin b) = .fin (a - b) := by
  simp [RFloat.sub, RFloat.add, RFloat.neg, sub_eq_add_neg]

/-- C3: `find_extent` refines the claimed specification: a single pad
`(lon_max - lon_min) * buffer` derived from the longitude span only,
applied to both axes, returning `(bottom, top, left, right) =
(lon_min - pad, lon_max + pad, lat_min - pad, lat_max + pad)` over the
min/max of all points of all (nonempty) polygons. -/
theorem c3_find_extent (all_poly : List PolyQ) (buffer : ℚ) (hne : all_poly ≠ [])
    (hall : ∀ p ∈ all_poly, p ≠ []) :
    find_extent all_poly buffer = (spec_extent all_poly buffer).map (List.map RFloat.fin) := by
  cases all_poly with
  | nil => exact absurd rfl hne
  | cons p ps =>
    obtain ⟨x, xs, rfl⟩ : ∃ x xs, p = x :: xs := by
      cases p with
      | nil => exact absurd rfl (hall [] (by simp))
      | cons x xs => exact ⟨x, xs, rfl⟩
    have hall2 : ∀ q ∈ ps, q ≠ [] := fun q hq => hall q (by simp [hq])
    have hscan : scanLoop initState ((x :: xs) :: ps) =
        some ⟨.fin ((ps.flatten.map Prod.fst).foldl max ((xs.map Prod.fst).foldl max x.1)),
              .fin ((ps.flatten.map Prod.fst).foldl min ((xs.map Prod.fst).foldl min x.1)),
              .fin ((ps.flatten.map Prod.snd).foldl max ((xs.map Prod.snd).foldl max x.2)),
              .fin ((ps.flatten.map Prod.snd).foldl min ((xs.map Prod.snd).foldl min x.2))⟩ := by
      have hstep0 : stepPoly initState (x :: xs) =
          some ⟨.fin ((xs.map Prod.fst).foldl max x.1),
                .fin ((xs.map Prod.fst).foldl min x.1),
                .fin ((xs.map Prod.snd).foldl max x.2),
                .fin ((xs.map Prod.snd).foldl min x.2)⟩ := by
        simp only [initState, stepPoly, List.map_cons]
        rw [show ((x.1 :: (xs.map Prod.fst)).max?) = some ((xs.map Prod.fst).foldl max x.1) from rfl,
          show ((x.1 :: (xs.map Prod.fst)).min?) = some ((xs.map Prod.fst).foldl min x.1) from rfl,
          show ((x.2 :: (xs.map Prod.snd)).max?) = some ((xs.map Prod.snd).foldl max x.2) from rfl,
          show ((x.2 :: (xs.map Prod.snd)).min?) = some ((xs.map Prod.snd).foldl min x.2) from rfl]
        simp [RFloat.gtb, RFloat.ltb]
      simp only [scanLoop, hstep0]
      exact scanLoop_fin ps hall2 _ _ _ _
    have hMm : (xs.map Prod.fst ++ ps.flatten.map Prod.fst).foldl min x.1 ≤
        (xs.map Prod.fst ++ ps.flatten.map Prod.fst).foldl max x.1 :=
      foldl_min_le_foldl_max _ _
    rw [List.foldl_append, List.foldl_append] at hMm
    have e1 : (((x :: xs) :: ps).flatten.map Prod.fst) =
        x.1 :: (xs.map Prod.fst ++ ps.flatten.map Prod.fst) := by simp
    have e2 : (((x :: xs) :: ps).flatten.map Prod.snd) =
        x.2 :: (xs.map Prod.snd ++ ps.flatten.map Prod.snd) := by simp
    rw [find_extent, hscan, spec_extent, e1, e2,
      show ((x.1 :: (xs.map Prod.fst ++ ps.flatten.map Prod.fst)).max?) =
        some ((xs.map Prod.fst ++ ps.flatten.map Prod.fst).foldl max x.1) from rfl,
      show ((x.1 :: (xs.map Prod.fst ++ ps.flatten.map Prod.fst)).min?) =
        some ((xs.map Prod.fst ++ ps.flatten.map Prod.fst).foldl min x.1) from rfl,
      show ((x.2 :: (xs.map Prod.snd ++ ps.flatten.map Prod.snd)).max?) =
        some ((xs.map Prod.snd ++ ps.flatten.map Prod.snd).foldl max x.2) from rfl,
      show ((x.2 :: (xs.map Prod.snd ++ ps.flatten.map Prod.snd)).min?) =
        some ((xs.map Prod.snd ++ ps.flatten.map Prod.snd).foldl min x.2) from rfl]
    simp only [List.foldl_append]
    have habs : |(ps.flatten.map Prod.fst).foldl max ((xs.map Prod.fst).foldl max x.1) -
        (ps.flatten.map Prod.fst).foldl min ((xs.map Prod.fst).foldl min x.1)| =
        (ps.flatten.map Prod.fst).foldl max ((xs.map Prod.fst).foldl max x.1) -
        (ps.flatten.map Prod.fst).foldl min ((xs.map Prod.fst).foldl min x.1) :=
      abs_of_nonneg (sub_nonneg.mpr hMm)
    simp [RFloat.sub_fin, RFloat.abs, RFloat.mul, RFloat.add, habs]
    exact Or.inl (by simpa using hMm)

/-- Witness for C3 at the claim's concrete data: longitude range `[0, 10]`,
latitude range `[0, 5]`, buffer 0.1: the extent is exactly
`(-1.0, 11.0, -1.0, 6.0)`. -/
theorem c3_find_extent_witness :
    find_extent [[(0, 0), (10, 5), (0, 5)]] (1 / 10) =
      some [RFloat.fin (-1), RFloat.fin 11, RFloat.fin (-1), RFloat.fin 6] := by
  rw [c3_find_extent [[(0, 0), (10, 5), (0, 5)]] (1 / 10) (by simp) (by simp)]
  have hmin1 : (([[((0 : ℚ), (0 : ℚ)), (10, 5), (0, 5)]].flatten).map Prod.fst).min? = some 0 := by
    decide
  have hmax1 : (([[((0 : ℚ), (0 : ℚ)), (10, 5), (0, 5)]].flatten).map Prod.fst).max? = some 10 := by
    decide
  have hmin2 : (([[((0 : ℚ), (0 : ℚ)), (10, 5), (0, 5)]].flatten).map Prod.snd).min? = some 0 := by
    decide
  have hmax2 : (([[((0 : ℚ), (0 : ℚ)), (10, 5), (0, 5)]].flatten).map Prod.snd).max? = some 5 := by
    decide
  rw [spec_extent, hmin1, hmax1, hmin2, hmax2]
  norm_num
